import Mathlib

/-!
Verification development for the GitHub profile statistics generator.

The repository contains two generator classes with near-identical logic
(`github_profile_generator.py` and `utils/github_stats.py`, both named
`GitHubProfileGenerator`), a standalone chart script
(`scripts/generate_languages_chart.py`), and an entry point (`main.py`).
This file gives a shallow embedding of the pure, data-transforming parts of
that code: timestamp parsing and arithmetic, statistics aggregation,
language-percentage computation, the chart-data pipeline, the small-language
folding step, and the entry point's attribute lookup.

Machine reals of the Python code (float percentages) are embedded as `ℚ`;
Python exceptions are embedded as `Except`/`Option` results; Python dicts,
which preserve insertion order, are embedded as association lists.
-/

/-! ### Python `datetime` model

The code calls `datetime.fromisoformat` on strings of the shape
`YYYY-MM-DDTHH:MM:SS` with an optional `+HH:MM` offset (GitHub timestamps end
in `Z`, which the code first rewrites to `+00:00`).  We model the parsed value
with its calendar components plus an `aware` flag recording whether an offset
was present; the offset magnitude is never used arithmetically by the code
(timezone-aware values always hit a `TypeError` against the naive `now`, or
are only formatted), so it is not stored. -/

/-- A parsed Python `datetime`: calendar components plus timezone-awareness. -/
structure PyDateTime where
  year : Nat
  month : Nat
  day : Nat
  hour : Nat
  minute : Nat
  second : Nat
  aware : Bool
deriving DecidableEq

/-- Decimal value of a digit character, `none` for non-digits. -/
def digitVal (c : Char) : Option Nat :=
  if c.isDigit then some (c.toNat - 48) else none

/-- Two-digit decimal value. -/
def twoDigits (a b : Char) : Option Nat := do
  let x ← digitVal a
  let y ← digitVal b
  pure (10 * x + y)

/-- Four-digit decimal value. -/
def fourDigits (a b c d : Char) : Option Nat := do
  let x ← twoDigits a b
  let y ← twoDigits c d
  pure (100 * x + y)

/-- Gregorian leap-year test, as used by Python's calendar arithmetic. -/
def isLeap (y : Nat) : Bool :=
  (y % 4 == 0 && y % 100 != 0) || y % 400 == 0

/-- Cumulative day counts at the start of each month in a non-leap year. -/
def cumMonths : List Nat := [0, 31, 59, 90, 120, 151, 181, 212, 243, 273, 304, 334]

/-- Number of days in a month of a given year. -/
def daysInMonth (y m : Nat) : Nat :=
  if m = 2 then (if isLeap y then 29 else 28)
  else if m = 4 ∨ m = 6 ∨ m = 9 ∨ m = 11 then 30
  else 31

/-- Range-check the components and build a `PyDateTime` (Python's `datetime`
constructor validates exactly these bounds and raises `ValueError` otherwise,
with `MINYEAR = 1`). -/
def mkDateTime (y m d hh mm ss : Nat) (aware : Bool) : Option PyDateTime :=
  if 1 ≤ y ∧ y ≤ 9999 ∧ 1 ≤ m ∧ m ≤ 12 ∧ 1 ≤ d ∧ d ≤ daysInMonth y m
      ∧ hh ≤ 23 ∧ mm ≤ 59 ∧ ss ≤ 59
  then some ⟨y, m, d, hh, mm, ss, aware⟩ else none

/-- Modelled core of Python `datetime.fromisoformat` (as available in the
Python versions this code targets): accepts `YYYY-MM-DD`, or
`YYYY-MM-DD*HH:MM:SS` with an arbitrary one-character separator `*`, with an
optional `+HH:MM`/`-HH:MM` offset; every other string is a parse failure
(`ValueError`).  Shorter time forms and fractional seconds, which never occur
in the data this program feeds to it, are omitted from the model. -/
def parseTS (s : String) : Option PyDateTime :=
  match s.data with
  | [y1, y2, y3, y4, a1, m1, m2, a2, d1, d2] => do
      guard (a1 = '-' ∧ a2 = '-')
      let y ← fourDigits y1 y2 y3 y4
      let m ← twoDigits m1 m2
      let d ← twoDigits d1 d2
      mkDateTime y m d 0 0 0 false
  | [y1, y2, y3, y4, a1, m1, m2, a2, d1, d2, _t,
     h1, h2, c1, n1, n2, c2, e1, e2] => do
      guard (a1 = '-' ∧ a2 = '-' ∧ c1 = ':' ∧ c2 = ':')
      let y ← fourDigits y1 y2 y3 y4
      let m ← twoDigits m1 m2
      let d ← twoDigits d1 d2
      let hh ← twoDigits h1 h2
      let mm ← twoDigits n1 n2
      let ss ← twoDigits e1 e2
      mkDateTime y m d hh mm ss false
  | [y1, y2, y3, y4, a1, m1, m2, a2, d1, d2, _t,
     h1, h2, c1, n1, n2, c2, e1, e2, os, o1, o2, oc, p1, p2] => do
      guard ((os = '+' ∨ os = '-') ∧ oc = ':'
        ∧ a1 = '-' ∧ a2 = '-' ∧ c1 = ':' ∧ c2 = ':')
      let oh ← twoDigits o1 o2
      let om ← twoDigits p1 p2
      guard (oh ≤ 23 ∧ om ≤ 59)
      let y ← fourDigits y1 y2 y3 y4
      let m ← twoDigits m1 m2
      let d ← twoDigits d1 d2
      let hh ← twoDigits h1 h2
      let mm ← twoDigits n1 n2
      let ss ← twoDigits e1 e2
      mkDateTime y m d hh mm ss true
  | _ => none

/-- Model of the Python idiom `s.replace("Z", "+00:00")` applied before every
`fromisoformat` call: every `Z` character is replaced by `+00:00`. -/
def replaceZ (s : String) : String :=
  String.mk (s.data.foldr
    (fun c acc => if c = 'Z' then '+' :: '0' :: '0' :: ':' :: '0' :: '0' :: acc
      else c :: acc) [])

/-- Proleptic-Gregorian ordinal day number (Python `date.toordinal`). -/
def toOrdinal (y m d : Nat) : Nat :=
  365 * (y - 1) + ((y - 1) / 4 - (y - 1) / 100) + (y - 1) / 400
    + cumMonths.getD (m - 1) 0 + (if 2 < m ∧ isLeap y then 1 else 0) + d

/-- Seconds since the calendar epoch, used for `datetime` subtraction. -/
def toSeconds (dt : PyDateTime) : Int :=
  86400 * (toOrdinal dt.year dt.month dt.day : Int)
    + 3600 * (dt.hour : Int) + 60 * (dt.minute : Int) + (dt.second : Int)

/-- The `.days` component of a Python `timedelta` `a - b`: `timedelta`
normalises so that `.days` is the floor of the difference in days. -/
def diffDays (a b : PyDateTime) : Int :=
  Int.fdiv (toSeconds a - toSeconds b) 86400

/-- A decimal digit character (units digit of `n`). -/
def digitChar10 (n : Nat) : Char := Char.ofNat (48 + n % 10)

/-- Model of `strftime("%Y-%m-%d")`: zero-padded `YYYY-MM-DD`. -/
def formatYMD (dt : PyDateTime) : String :=
  String.mk [digitChar10 (dt.year / 1000), digitChar10 (dt.year / 100),
    digitChar10 (dt.year / 10), digitChar10 dt.year, '-',
    digitChar10 (dt.month / 10), digitChar10 dt.month, '-',
    digitChar10 (dt.day / 10), digitChar10 dt.day]

/-! ### Data model: repository and user records -/

/-- A repository record, with the fields the aggregation code reads.  The code
reads them with `repo.get(...)` and the defaults shown in the source
(`fork`/`private` default `False`, counters default `0`); `language` and
`updated_at` are nullable/possibly absent. -/
structure Repo where
  name : String := ""
  fork : Bool := false
  isPrivate : Bool := false
  stargazers_count : Nat := 0
  forks_count : Nat := 0
  size : Nat := 0
  language : Option String := none
  updated_at : Option String := none
deriving DecidableEq

/-- A user record, with the fields the aggregation code reads
(`user_data.get("created_at", "")`, `followers`, `following`). -/
structure UserData where
  created_at : String := ""
  followers : Nat := 0
  following : Nat := 0
deriving DecidableEq

/-! ### Aggregator, `utils/github_stats.py` version

`calculate_stats` there is total: every timestamp parse is wrapped in a
`try/except` that falls back to a default (skip / `0` / `"N/A"`).  Note that
`datetime.utcnow()` is timezone-naive while a successfully parsed `...+00:00`
timestamp is aware, so the subtraction in the recency check raises `TypeError`,
which the same `except` catches: an aware timestamp is therefore excluded from
the recent count, which the model states with the `!dt.aware` conjunct. -/

/-- Model of `[r.get("language") for r in repos if r.get("language")]`: the
check is Python truthiness, so an empty-string language is also dropped. -/
def repoLanguages (repos : List Repo) : List String :=
  repos.filterMap (fun r =>
    match r.language with
    | none => none
    | some l => if l = "" then none else some l)

/-- One repository's recency check (`utils/github_stats.py` lines 147-155),
with the literal 30-day window generalised to `w`: the repository counts when
`updated_at` is present and truthy, parses, is naive (otherwise the
subtraction raises and the `except` skips it), and `(now - dt).days <= w`. -/
def recentPred (now : PyDateTime) (w : Int) (r : Repo) : Bool :=
  match r.updated_at with
  | none => false
  | some s =>
    if s = "" then false
    else
      match parseTS (replaceZ s) with
      | none => false
      | some dt => !dt.aware && decide (diffDays now dt ≤ w)

/-- The recent-activity count over a repository list. -/
def recentCount (now : PyDateTime) (w : Int) (repos : List Repo) : Nat :=
  repos.countP (recentPred now w)

/-- Model of `_calculate_account_age` in `utils/github_stats.py`: empty string
and parse failures yield 0; an aware parse result makes the naive-`utcnow`
subtraction raise `TypeError`, also caught, also yielding 0. -/
def calculate_account_age (now : PyDateTime) (created_at : String) : Int :=
  if created_at = "" then 0
  else
    match parseTS (replaceZ created_at) with
    | none => 0
    | some dt => if dt.aware then 0 else diffDays now dt

/-- Model of Python's `max(..., key=...)`: left fold keeping the first element
with the greatest key (ties keep the earlier element). -/
def pyMaxBy (key : Repo → String) (best : Repo) : List Repo → Repo
  | [] => best
  | x :: rest => pyMaxBy key (if key best < key x then x else best) rest

/-- The key used by `_get_last_activity`: `x.get("updated_at", "")`. -/
def updatedKey (r : Repo) : String := r.updated_at.getD ""

/-- Model of `_get_last_activity` (identical in both generator classes): pick
the repository whose `updated_at` string is lexicographically greatest, then
parse and format it; the empty list, a missing key (`KeyError`) and a parse
failure (`ValueError`) are all caught and yield `"N/A"`. -/
def get_last_activity (repos : List Repo) : String :=
  match repos with
  | [] => "N/A"
  | r :: rest =>
    match (pyMaxBy updatedKey r rest).updated_at with
    | none => "N/A"
    | some s =>
      match parseTS (replaceZ s) with
      | none => "N/A"
      | some dt => formatYMD dt

/-- The statistics snapshot built by `calculate_stats` in
`utils/github_stats.py` (the `user_data` passthrough entry is omitted;
`language_counts` is represented by the underlying `repo_languages` list the
`Counter` is built from). -/
structure Stats where
  total_repos : Nat
  public_repos : Nat
  original_repos : Nat
  forked_repos : Nat
  total_stars : Nat
  total_forks : Nat
  total_size_kb : Nat
  repo_languages : List String
  recent_activity : Nat
  followers : Nat
  following : Nat
  account_age_days : Int
  last_active : String
deriving DecidableEq

/-- Model of `calculate_stats` in `utils/github_stats.py` (lines 128-172):
total on every input, including the empty repository list. -/
def calculate_stats (now : PyDateTime) (repos : List Repo) (user_data : UserData) :
    Stats where
  total_repos := repos.length
  public_repos := (repos.filter (fun r => !r.isPrivate)).length
  original_repos := (repos.filter (fun r => !r.fork)).length
  forked_repos := (repos.filter (fun r => r.fork)).length
  total_stars := (repos.map Repo.stargazers_count).sum
  total_forks := (repos.map Repo.forks_count).sum
  total_size_kb := (repos.map Repo.size).sum
  repo_languages := repoLanguages repos
  recent_activity := recentCount now 30 repos
  followers := user_data.followers
  following := user_data.following
  account_age_days := calculate_account_age now user_data.created_at
  last_active := get_last_activity repos

/-! ### Aggregator, `github_profile_generator.py` version

That file's `calculate_stats` returns the empty dict `{}` when the repository
list is empty, and its recent-activity list comprehension (lines 160-164) has
no `try/except`: `repo['updated_at']` raises `KeyError` when the key is
missing, `datetime.fromisoformat` raises `ValueError` on a malformed string,
and comparing an aware timestamp against the naive `datetime.now()` raises
`TypeError`.  All three propagate to the caller, so this variant is embedded
with an `Except` result. -/

/-- Python exceptions that the embedded fragments can raise. -/
inductive PyError where
  | keyError
  | valueError
  | typeError
  | zeroDivisionError
deriving DecidableEq

/-- One repository's recency check in `github_profile_generator.py`
(lines 160-164): no exception handling, strict comparison
`dt > now - timedelta(days=30)`. -/
def gpgRecentFlag (now : PyDateTime) (r : Repo) : Except PyError Bool :=
  match r.updated_at with
  | none => .error .keyError
  | some s =>
    match parseTS (replaceZ s) with
    | none => .error .valueError
    | some dt =>
      if dt.aware then .error .typeError
      else .ok (decide (toSeconds now - 30 * 86400 < toSeconds dt))

/-- Length of the `recent_repos` comprehension: left-to-right, stopping at the
first raised exception. -/
def gpgRecentCount (now : PyDateTime) : List Repo → Except PyError Nat
  | [] => .ok 0
  | r :: rest => do
    let b ← gpgRecentFlag now r
    let n ← gpgRecentCount now rest
    pure (if b then n + 1 else n)

/-- Model of `_calculate_account_age` in `github_profile_generator.py`: it
strips timezone info from both operands before subtracting, so aware parses
are fine; any exception yields 0. -/
def gpgAccountAge (now : PyDateTime) (created_at : String) : Int :=
  match parseTS (replaceZ created_at) with
  | none => 0
  | some dt => diffDays now dt

/-- The statistics snapshot built by `github_profile_generator.py` (its
account-age key is `account_age`). -/
structure GpgStats where
  total_repos : Nat
  public_repos : Nat
  original_repos : Nat
  forked_repos : Nat
  total_stars : Nat
  total_forks : Nat
  total_size_kb : Nat
  repo_languages : List String
  recent_activity : Nat
  followers : Nat
  following : Nat
  account_age : Int
  last_active : String
deriving DecidableEq

/-- Result of `github_profile_generator.py`'s `calculate_stats`: the empty
dict for an empty repository list, or a populated snapshot. -/
inductive GpgStatsResult where
  | empty
  | stats (s : GpgStats)
deriving DecidableEq

/-- Model of `calculate_stats` in `github_profile_generator.py`
(lines 140-181): returns `{}` on the empty list, otherwise propagates any
exception raised by the recent-activity comprehension. -/
def gpg_calculate_stats (now : PyDateTime) (repos : List Repo)
    (user_data : UserData) : Except PyError GpgStatsResult :=
  if repos.isEmpty then .ok .empty
  else
    (gpgRecentCount now repos).map fun rc =>
      .stats
        { total_repos := repos.length
          public_repos := (repos.filter (fun r => !r.isPrivate)).length
          original_repos := (repos.filter (fun r => !r.fork)).length
          forked_repos := (repos.filter (fun r => r.fork)).length
          total_stars := (repos.map Repo.stargazers_count).sum
          total_forks := (repos.map Repo.forks_count).sum
          total_size_kb := (repos.map Repo.size).sum
          repo_languages := repoLanguages repos
          recent_activity := rc
          followers := user_data.followers
          following := user_data.following
          account_age := gpgAccountAge now user_data.created_at
          last_active := get_last_activity repos }

/-! ### Language percentages and the chart pipeline -/

/-- Total byte count of a language-byte map. -/
def bytesTotal (language_bytes : List (String × Nat)) : Nat :=
  (language_bytes.map Prod.snd).sum

/-- One step of a stable descending insertion sort on the percent component:
`a` is placed before the first element whose percent is `≤` its own, so that
equal percents keep their original relative order — the behaviour of Python's
stable `sorted(..., key=lambda x: x[1], reverse=True)`. -/
def insertDesc (a : String × ℚ) : List (String × ℚ) → List (String × ℚ)
  | [] => [a]
  | b :: l => if a.2 < b.2 then b :: insertDesc a l else a :: b :: l

/-- Stable descending sort by the percent component. -/
def sortDesc : List (String × ℚ) → List (String × ℚ)
  | [] => []
  | a :: l => insertDesc a (sortDesc l)

/-- `(bytes_count / total_bytes) * 100` for one entry. -/
def pctOf (total : Nat) (x : String × Nat) : String × ℚ :=
  (x.1, ((x.2 : ℚ) / (total : ℚ)) * 100)

/-- Model of the percentage-conversion tail of `get_languages_data_no_token`
(`scripts/generate_languages_chart.py` lines 128-136): empty result on zero
total bytes, otherwise percentages sorted descending (stably). -/
def get_languages_percent (languages_data : List (String × Nat)) :
    List (String × ℚ) :=
  let total := bytesTotal languages_data
  if total = 0 then []
  else sortDesc (languages_data.map (pctOf total))

/-- The percentage dict built inside `create_language_chart` (lines 208-213 of
both generator classes). -/
def language_percentages (language_bytes : List (String × Nat)) :
    List (String × ℚ) :=
  language_bytes.map (pctOf (bytesTotal language_bytes))

/-- The reported subset of the language distribution: the top 10 entries by
percent (`sorted(...)[:10]`, lines 215-220 of both generator classes). -/
def sorted_languages (language_bytes : List (String × Nat)) :
    List (String × ℚ) :=
  (sortDesc (language_percentages language_bytes)).take 10

/-- Sum of the percentages actually shown in the chart. -/
def reportedSum (language_bytes : List (String × Nat)) : ℚ :=
  ((sorted_languages language_bytes).map Prod.snd).sum

/-- The data a rendered chart displays: labels and their percent values. -/
structure ChartData where
  labels : List String
  sizes : List ℚ
deriving DecidableEq

/-- Model of `create_language_chart` in both generator classes: `ok none` is
the early `return` that skips chart creation on an empty map; a non-empty map
whose bytes sum to zero hits the unguarded division (`ZeroDivisionError`);
otherwise the top-10 data is rendered. -/
def create_language_chart (language_bytes : List (String × Nat)) :
    Except PyError (Option ChartData) :=
  if language_bytes.isEmpty then .ok none
  else if bytesTotal language_bytes = 0 then .error .zeroDivisionError
  else
    let sl := sorted_languages language_bytes
    if sl.isEmpty then .ok none
    else .ok (some ⟨sl.map Prod.fst, sl.map Prod.snd⟩)

/-! ### Small-language folding (`scripts/generate_languages_chart.py`) -/

/-- Python dict assignment `d[k] = v` on an insertion-ordered association
list: updates in place when the key exists, otherwise appends. -/
def dictSet : List (String × ℚ) → String → ℚ → List (String × ℚ)
  | [], k, v => [(k, v)]
  | (k', v') :: rest, k, v =>
    if k' = k then (k, v) :: rest else (k', v') :: dictSet rest k v

/-- One iteration of the folding loop (lines 161-165): an entry at or above
the threshold is stored in `main_languages`, a smaller one is accumulated into
`other_percent`. -/
def foldStep (threshold : ℚ) (acc : List (String × ℚ) × ℚ) (x : String × ℚ) :
    List (String × ℚ) × ℚ :=
  if threshold ≤ x.2 then (dictSet acc.1 x.1 x.2, acc.2) else (acc.1, acc.2 + x.2)

/-- Model of the small-language folding step of `create_languages_chart`
(lines 157-168), with the literal threshold 1.5 generalised to a parameter:
after the loop, a positive `other_percent` is stored under the key
`"Other"`. -/
def foldSmallLanguages (threshold : ℚ) (languages_data : List (String × ℚ)) :
    List (String × ℚ) :=
  let acc := languages_data.foldl (foldStep threshold) ([], 0)
  if 0 < acc.2 then dictSet acc.1 "Other" acc.2 else acc.1

/-- Sum of the percentages folded into the `"Other"` bucket: those strictly
below the threshold. -/
def otherSum (threshold : ℚ) (languages_data : List (String × ℚ)) : ℚ :=
  ((languages_data.filter (fun x => x.2 < threshold)).map Prod.snd).sum

/-- The hard-coded sample data `create_languages_chart` substitutes when the
fetched language data is empty (lines 147-155). -/
def sample_languages_data : List (String × ℚ) :=
  [("Python", 45), ("JavaScript", 25), ("HTML", 15), ("CSS", 8), ("Java", 7)]

/-- Model of the data path of `create_languages_chart` (lines 142-201): an
empty language map is replaced by the sample data, then the folding step runs
with threshold 1.5 and a pie chart of the result is always rendered. -/
def create_languages_chart_data (languages_data : List (String × ℚ)) :
    ChartData :=
  let data := if languages_data.isEmpty then sample_languages_data
    else languages_data
  let main := foldSmallLanguages (3 / 2) data
  ⟨main.map Prod.fst, main.map Prod.snd⟩

/-! ### The entry point (`main.py`) -/

/-- The methods defined on the `GitHubProfileGenerator` class in
`utils/github_stats.py`, the class `main.py` imports (the file ends after
`create_readme_content`; it defines neither `generate_profile` nor
`save_stats_json`). -/
def githubStatsMethods : List String :=
  ["__init__", "fetch_user_data", "fetch_repositories", "fetch_language_stats",
   "calculate_stats", "_calculate_account_age", "_get_last_activity",
   "_get_color", "create_language_chart", "create_activity_dashboard",
   "create_readme_content"]

/-- Outcome of running `main()`. -/
inductive MainOutcome where
  | completed
  | attributeError (attr : String)
deriving DecidableEq

/-- Model of `main()` in `main.py`: it constructs a
`utils.github_stats.GitHubProfileGenerator` (whose class body defines exactly
`githubStatsMethods`, and whose implicit base `object` defines no
`generate_profile` either) and invokes `generator.generate_profile()`; Python
attribute lookup raises `AttributeError` when the name is not found.  This is
independent of the environment (`GITHUB_USERNAME`/`GITHUB_TOKEN` only select
the constructor arguments). -/
def main_run : MainOutcome :=
  if "generate_profile" ∈ githubStatsMethods then .completed
  else .attributeError "generate_profile"

/-- Descending sortedness on the percent component. -/
def DescSorted (l : List (String × ℚ)) : Prop :=
  List.Pairwise (fun a b => b.2 ≤ a.2) l

/-- A fixed "now" instant (naive, as `datetime.utcnow()` returns). -/
def demoNow : PyDateTime := ⟨2024, 1, 10, 0, 0, 0, false⟩

/-- A well-formed repository whose naive timestamp parses. -/
def okRepo : Repo := { updated_at := some "2024-01-02T03:04:05" }

/-- A repository with a malformed (unparseable) timestamp. -/
def badRepo : Repo := { updated_at := some "garbage" }

/-- A user record with no creation timestamp. -/
def demoUser : UserData := {}

/-- The statistics `github_profile_generator.py` computes for `[okRepo]`. -/
def gpgDemoStats : GpgStats :=
  { total_repos := 1, public_repos := 1, original_repos := 1, forked_repos := 0,
    total_stars := 0, total_forks := 0, total_size_kb := 0, repo_languages := [],
    recent_activity := 1, followers := 0, following := 0, account_age := 0,
    last_active := "2024-01-02" }

/-- The eleven-language byte map used to refute the reported-subset half of
C2: eleven languages of one byte each. -/
def elevenLangs : List (String × Nat) :=
  [("A", 1), ("B", 1), ("C", 1), ("D", 1), ("E", 1), ("F", 1), ("G", 1),
   ("H", 1), ("I", 1), ("J", 1), ("K", 1)]

/-- The repository `_get_last_activity` selects:
`max(repos, key=lambda x: x.get("updated_at", ""))`. -/
def latestRepo (r : Repo) (rest : List Repo) : Repo := pyMaxBy updatedKey r rest

/-- A repository whose `updated_at` string is lexicographically above every
ISO timestamp but does not parse. -/
def repoBad : Repo := { updated_at := some "bad" }

/-- The folding input that refutes the appended-`"Other"` conjunct of C4: a
qualifying input language literally named `"Other"`. -/
def otherFirst : List (String × ℚ) := [("Other", 50), ("X", 49), ("Y", 1)]

/-! ### Helper lemmas -/

/-- A Boolean predicate and its negation partition a list's length. -/
theorem length_filter_not_add (p : Repo → Bool) (l : List Repo) :
    (l.filter (fun r => !p r)).length + (l.filter p).length = l.length := by
  induction l with
  | nil => rfl
  | cons a t ih =>
    cases h : p a with
    | true => simp [List.filter_cons, h]; omega
    | false => simp [List.filter_cons, h]; omega

/-- `countP` is monotone in the predicate. -/
theorem countP_mono_of_imp (p q : Repo → Bool) (l : List Repo)
    (h : ∀ r, p r = true → q r = true) : l.countP p ≤ l.countP q := by
  induction l with
  | nil => simp
  | cons a t ih =>
    rw [List.countP_cons, List.countP_cons]
    by_cases hp : p a = true
    · rw [if_pos hp, if_pos (h a hp)]; omega
    · rw [if_neg hp]
      by_cases hq : q a = true
      · rw [if_pos hq]; omega
      · rw [if_neg hq]; omega

/-- Sum of any projection over an insertion step. -/
theorem sum_map_insertDesc (f : String × ℚ → ℚ) (a : String × ℚ)
    (l : List (String × ℚ)) :
    ((insertDesc a l).map f).sum = f a + (l.map f).sum := by
  induction l with
  | nil => simp [insertDesc]
  | cons b t ih =>
    by_cases h : a.2 < b.2
    · simp only [insertDesc, if_pos h, List.map_cons, List.sum_cons, ih]; ring
    · simp [insertDesc, if_neg h]

/-- The stable descending sort preserves sums of projections. -/
theorem sum_map_sortDesc (f : String × ℚ → ℚ) (l : List (String × ℚ)) :
    ((sortDesc l).map f).sum = (l.map f).sum := by
  induction l with
  | nil => rfl
  | cons a t ih => simp [sortDesc, sum_map_insertDesc, ih]

/-- Insertion increases length by one. -/
theorem length_insertDesc (a : String × ℚ) (l : List (String × ℚ)) :
    (insertDesc a l).length = l.length + 1 := by
  induction l with
  | nil => rfl
  | cons b t ih =>
    by_cases h : a.2 < b.2
    · simp only [insertDesc, if_pos h, List.length_cons, ih]
    · simp [insertDesc, if_neg h]

/-- The stable descending sort preserves length. -/
theorem length_sortDesc (l : List (String × ℚ)) :
    (sortDesc l).length = l.length := by
  induction l with
  | nil => rfl
  | cons a t ih => simp [sortDesc, length_insertDesc, ih]

/-- Membership in an insertion step. -/
theorem mem_insertDesc {x a : String × ℚ} {l : List (String × ℚ)} :
    x ∈ insertDesc a l ↔ x = a ∨ x ∈ l := by
  induction l with
  | nil => simp [insertDesc]
  | cons b t ih =>
    by_cases h : a.2 < b.2
    · simp only [insertDesc, if_pos h, List.mem_cons, ih]; tauto
    · simp only [insertDesc, if_neg h, List.mem_cons]

/-- Insertion preserves descending sortedness. -/
theorem descSorted_insertDesc (a : String × ℚ) {l : List (String × ℚ)}
    (h : DescSorted l) : DescSorted (insertDesc a l) := by
  induction l with
  | nil => simp [insertDesc, DescSorted]
  | cons b t ih =>
    rw [DescSorted, List.pairwise_cons] at h
    by_cases hlt : a.2 < b.2
    · rw [DescSorted]
      simp only [insertDesc, if_pos hlt]
      rw [List.pairwise_cons]
      refine ⟨?_, ih h.2⟩
      intro x hx
      rcases mem_insertDesc.mp hx with rfl | hxt
      · exact le_of_lt hlt
      · exact h.1 x hxt
    · rw [DescSorted]
      simp only [insertDesc, if_neg hlt]
      rw [List.pairwise_cons]
      refine ⟨?_, List.pairwise_cons.mpr h⟩
      intro x hx
      rcases List.mem_cons.mp hx with rfl | hxt
      · exact le_of_not_lt hlt
      · exact le_trans (h.1 x hxt) (le_of_not_lt hlt)

/-- The stable descending sort sorts. -/
theorem descSorted_sortDesc (l : List (String × ℚ)) : DescSorted (sortDesc l) := by
  induction l with
  | nil => exact List.Pairwise.nil
  | cons a t ih => exact descSorted_insertDesc a ih

/-- Stability of the insertion step: the entries carrying any fixed percent
value `p` keep their relative order, with the inserted entry first. -/
theorem filter_insertDesc (p : ℚ) (a : String × ℚ) (l : List (String × ℚ)) :
    (insertDesc a l).filter (fun x => decide (x.2 = p))
      = (if a.2 = p then [a] else [])
        ++ l.filter (fun x => decide (x.2 = p)) := by
  induction l with
  | nil =>
    by_cases h : a.2 = p <;> simp [insertDesc, h]
  | cons b t ih =>
    by_cases hlt : a.2 < b.2
    · have ha : ¬ a.2 = p ∨ ¬ b.2 = p := by
        by_cases hb : b.2 = p
        · left; rw [← hb] at *; exact ne_of_lt hlt
        · right; exact hb
      simp only [insertDesc, if_pos hlt, List.filter_cons, ih]
      by_cases hb : b.2 = p
      · rcases ha with ha' | hb'
        · simp [hb, ha']
        · exact absurd hb hb'
      · simp [hb]
    · simp only [insertDesc, if_neg hlt, List.filter_cons]
      by_cases ha : a.2 = p <;> by_cases hb : b.2 = p <;> simp [ha, hb]

/-- Stability of the sort: filtering to any fixed percent value commutes with
sorting, i.e. ties are broken by the original (insertion) order. -/
theorem filter_sortDesc (p : ℚ) (l : List (String × ℚ)) :
    (sortDesc l).filter (fun x => decide (x.2 = p))
      = l.filter (fun x => decide (x.2 = p)) := by
  induction l with
  | nil => rfl
  | cons a t ih =>
    show (insertDesc a (sortDesc t)).filter (fun x => decide (x.2 = p)) = _
    rw [filter_insertDesc, ih, List.filter_cons]
    by_cases ha : a.2 = p <;> simp [ha]

/-- `pyMaxBy` returns the accumulator or a list element, its key dominates the
accumulator's key, and its key dominates every list element's key — the
contract of Python's `max(...)` with a key function (first maximum on ties). -/
theorem pyMaxBy_spec (key : Repo → String) (best : Repo) (l : List Repo) :
    (pyMaxBy key best l = best ∨ pyMaxBy key best l ∈ l)
    ∧ key best ≤ key (pyMaxBy key best l)
    ∧ ∀ x ∈ l, key x ≤ key (pyMaxBy key best l) := by
  induction l generalizing best with
  | nil => exact ⟨Or.inl rfl, le_refl _, by simp⟩
  | cons a t ih =>
    have step : pyMaxBy key best (a :: t)
        = pyMaxBy key (if key best < key a then a else best) t := rfl
    by_cases h : key best < key a
    · rw [step, if_pos h]
      rcases ih a with ⟨hmem, hbest, hall⟩
      refine ⟨?_, le_trans (le_of_lt h) hbest, ?_⟩
      · rcases hmem with heq | hin
        · exact Or.inr (by rw [heq]; exact List.mem_cons_self a t)
        · exact Or.inr (List.mem_cons_of_mem a hin)
      · intro x hx
        rcases List.mem_cons.mp hx with rfl | hxt
        · exact hbest
        · exact hall x hxt
    · rw [step, if_neg h]
      rcases ih best with ⟨hmem, hbest, hall⟩
      refine ⟨?_, hbest, ?_⟩
      · rcases hmem with heq | hin
        · exact Or.inl heq
        · exact Or.inr (List.mem_cons_of_mem a hin)
      · intro x hx
        rcases List.mem_cons.mp hx with rfl | hxt
        · exact le_trans (le_of_not_lt h) hbest
        · exact hall x hxt

/-- A formatted calendar date is never the sentinel `"N/A"`. -/
theorem formatYMD_ne_NA (dt : PyDateTime) : formatYMD dt ≠ "N/A" := by
  intro h
  have h2 : (formatYMD dt).length = ("N/A" : String).length := by rw [h]
  simp [formatYMD, String.length] at h2

/-- Assigning a fresh key to a Python dict appends the pair. -/
theorem dictSet_fresh (l : List (String × ℚ)) (k : String) (v : ℚ)
    (h : k ∉ l.map Prod.fst) : dictSet l k v = l ++ [(k, v)] := by
  induction l with
  | nil => rfl
  | cons a t ih =>
    simp only [List.map_cons, List.mem_cons, not_or] at h
    have hne : ¬ a.1 = k := fun he => h.1 he.symm
    simp only [dictSet, if_neg hne, ih h.2]
    rfl

/-- The folding loop of `create_languages_chart`, run from any accumulator
whose stored keys are disjoint from the (duplicate-free) remaining input:
entries at or above the threshold are appended in order, the rest accumulate
into the running `other_percent`. -/
theorem foldStep_foldl_spec (threshold : ℚ) (data : List (String × ℚ)) :
    ∀ (main : List (String × ℚ)) (oth : ℚ),
      (data.map Prod.fst).Nodup →
      (∀ k ∈ data.map Prod.fst, k ∉ main.map Prod.fst) →
      data.foldl (foldStep threshold) (main, oth)
        = (main ++ data.filter (fun x => threshold ≤ x.2),
           oth + otherSum threshold data) := by
  induction data with
  | nil => intro main oth _ _; simp [otherSum]
  | cons a t ih =>
    intro main oth hnd hfresh
    rw [List.map_cons, List.nodup_cons] at hnd
    have hnd' : (t.map Prod.fst).Nodup := hnd.2
    have ha : a.1 ∉ t.map Prod.fst := hnd.1
    by_cases hT : threshold ≤ a.2
    · have hfa : (a :: t).filter (fun x => threshold ≤ x.2)
          = a :: t.filter (fun x => threshold ≤ x.2) := by
        simp [List.filter_cons, hT]
      have hoa : otherSum threshold (a :: t) = otherSum threshold t := by
        simp [otherSum, List.filter_cons, not_lt.mpr hT]
      have hfr : ∀ k ∈ t.map Prod.fst, k ∉ (main ++ [a]).map Prod.fst := by
        intro k hk
        simp only [List.map_append, List.mem_append, not_or]
        refine ⟨hfresh k (by simp [hk]), ?_⟩
        simp only [List.map_cons, List.map_nil, List.mem_singleton]
        intro hke
        rw [hke] at hk
        exact ha hk
      rw [List.foldl_cons]
      have hstep : foldStep threshold (main, oth) a
          = (dictSet main a.1 a.2, oth) := by simp [foldStep, hT]
      rw [hstep, dictSet_fresh main a.1 a.2 (hfresh a.1 (by simp)),
        ih (main ++ [a]) oth hnd' hfr, hfa, hoa]
      simp [List.append_assoc]
    · have hfa : (a :: t).filter (fun x => threshold ≤ x.2)
          = t.filter (fun x => threshold ≤ x.2) := by
        simp [List.filter_cons, hT]
      have hoa : otherSum threshold (a :: t) = a.2 + otherSum threshold t := by
        simp [otherSum, List.filter_cons, not_le.mp hT]
      rw [List.foldl_cons]
      have hstep : foldStep threshold (main, oth) a = (main, oth + a.2) := by
        simp [foldStep, hT]
      rw [hstep, ih main (oth + a.2) hnd' (fun k hk => hfresh k (by simp [hk])),
        hfa, hoa, add_assoc]

/-! ### Concrete inputs used by witnesses and counterexamples -/

/-! ### Claims -/

/-- Claim C1: for every repository list, the statistics computed by
`calculate_stats` satisfy `original_repos + forked_repos = total_repos`, where
`original_repos` counts repositories whose fork flag is false, `forked_repos`
those whose fork flag is true, and `total_repos` is the length of the list.
This holds unconditionally for the `utils/github_stats.py` implementation, and
for every snapshot the `github_profile_generator.py` implementation actually
produces. -/
theorem claim_C1_repo_partition :
    (∀ (now : PyDateTime) (repos : List Repo) (user_data : UserData),
      (calculate_stats now repos user_data).original_repos
          + (calculate_stats now repos user_data).forked_repos
        = (calculate_stats now repos user_data).total_repos)
    ∧ (∀ (now : PyDateTime) (repos : List Repo) (user_data : UserData)
        (s : GpgStats),
        gpg_calculate_stats now repos user_data
            = Except.ok (GpgStatsResult.stats s) →
        s.original_repos + s.forked_repos = s.total_repos) := by
  constructor
  · intro now repos u
    exact length_filter_not_add Repo.fork repos
  · intro now repos u s h
    unfold gpg_calculate_stats at h
    by_cases he : repos.isEmpty
    · simp [he] at h
    · rw [if_neg he] at h
      cases hr : gpgRecentCount now repos with
      | error e => rw [hr] at h; simp [Except.map] at h
      | ok rc =>
        rw [hr] at h
        simp only [Except.map, Except.ok.injEq, GpgStatsResult.stats.injEq] at h
        rw [← h]
        exact length_filter_not_add Repo.fork repos

/-- Witness for C1: a concrete repository list on which the
`github_profile_generator.py` implementation succeeds and the partition
identity holds for the snapshot it returns. -/
theorem claim_C1_repo_partition_witness :
    gpg_calculate_stats demoNow [okRepo] demoUser
        = Except.ok (GpgStatsResult.stats gpgDemoStats)
    ∧ gpgDemoStats.original_repos + gpgDemoStats.forked_repos
        = gpgDemoStats.total_repos := by
  refine ⟨rfl, ?_⟩
  exact claim_C1_repo_partition.2 demoNow [okRepo] demoUser gpgDemoStats rfl

/-- Counterexample for C3 as stated: on the empty repository list the
`github_profile_generator.py` implementation of `calculate_stats` returns the
empty dict, not a snapshot carrying `total_repos = 0` and
`last_active = "N/A"`. -/
theorem claim_C3_counterexample :
    ¬ ∃ s : GpgStats, gpg_calculate_stats demoNow [] demoUser
        = Except.ok (GpgStatsResult.stats s) := by
  rintro ⟨s, h⟩
  have hempty : gpg_calculate_stats demoNow [] demoUser
      = Except.ok GpgStatsResult.empty := rfl
  rw [hempty] at h
  simp at h

/-- Claim C3 (amended): the `utils/github_stats.py` statistics computation on
the empty repository list yields `total_repos = 0` and `last_active = "N/A"`
and, being a total function of its inputs, does not raise; the
`github_profile_generator.py` variant instead returns an empty dict for the
empty list. -/
theorem claim_C3_empty_stats :
    ∀ (now : PyDateTime) (user_data : UserData),
      (calculate_stats now [] user_data).total_repos = 0
      ∧ (calculate_stats now [] user_data).last_active = "N/A"
      ∧ gpg_calculate_stats now [] user_data
          = Except.ok GpgStatsResult.empty := by
  intro now u
  exact ⟨rfl, rfl, rfl⟩

/-- Claim C10: `main()` in `main.py` calls `generate_profile()` on the
`GitHubProfileGenerator` class imported from `utils.github_stats`, which
defines no method of that name, so the lookup raises `AttributeError` and the
entry point never completes the pipeline. -/
theorem claim_C10_main_attribute_error :
    main_run = MainOutcome.attributeError "generate_profile" := by decide

/-- Counterexample for C5 as stated: in `github_profile_generator.py` a
malformed `updated_at` reaches the unguarded `datetime.fromisoformat` call in
the recent-activity comprehension, and the resulting `ValueError` propagates
out of `calculate_stats` to its caller. -/
theorem claim_C5_counterexample :
    gpg_calculate_stats demoNow [badRepo] demoUser
      = Except.error PyError.valueError := rfl

/-- Claim C5 (amended): in `utils/github_stats.py` a malformed timestamp is
caught locally and yields the safe default — an unparseable `created_at` gives
account age 0, a repository with a missing or unparseable `updated_at` is
excluded from the recent-activity count — and the computation is a total
function, so no parse error reaches the caller; in
`github_profile_generator.py`, by contrast, a malformed `updated_at` raises to
the caller of `calculate_stats`. -/
theorem claim_C5_parse_errors_safe :
    ∀ (now : PyDateTime) (repos : List Repo) (user_data : UserData) (r : Repo),
      (parseTS (replaceZ user_data.created_at) = none →
        (calculate_stats now repos user_data).account_age_days = 0)
      ∧ ((∀ s, r.updated_at = some s → parseTS (replaceZ s) = none) →
          recentPred now 30 r = false)
      ∧ (calculate_stats now (r :: repos) user_data).recent_activity
          = (calculate_stats now repos user_data).recent_activity
            + (if recentPred now 30 r then 1 else 0) := by
  intro now repos u r
  refine ⟨?_, ?_, ?_⟩
  · intro hp
    show calculate_account_age now u.created_at = 0
    unfold calculate_account_age
    by_cases he : u.created_at = ""
    · rw [if_pos he]
    · rw [if_neg he, hp]
  · intro hp
    unfold recentPred
    cases hu : r.updated_at with
    | none => rfl
    | some s =>
      simp only []
      rw [hp s hu]
      simp
  · show (r :: repos).countP (recentPred now 30)
        = repos.countP (recentPred now 30) + _
    rw [List.countP_cons]

/-- Witness for C5 (amended): a concrete malformed record and an empty
creation timestamp, on which the safe defaults are realised. -/
theorem claim_C5_parse_errors_safe_witness :
    (calculate_stats demoNow [badRepo] demoUser).account_age_days = 0
    ∧ recentPred demoNow 30 badRepo = false := by
  refine ⟨(claim_C5_parse_errors_safe demoNow [badRepo] demoUser badRepo).1
    (by decide), ?_⟩
  refine (claim_C5_parse_errors_safe demoNow [] demoUser badRepo).2.1 ?_
  intro s hs
  have hg : s = "garbage" := by
    have : some "garbage" = some s := hs
    exact (Option.some.injEq _ _ ▸ this).symm
  rw [hg]
  decide

/-- Claim C9: for a fixed repository list and "now", tightening the recency
window never increases the recent-activity count (the window is the literal 30
in the source, generalised here to a parameter of `recentCount`). -/
theorem claim_C9_recency_monotone :
    ∀ (now : PyDateTime) (repos : List Repo) (w1 w2 : Int), w2 ≤ w1 →
      recentCount now w2 repos ≤ recentCount now w1 repos := by
  intro now repos w1 w2 hw
  apply countP_mono_of_imp
  intro r hp
  unfold recentPred at hp ⊢
  cases hu : r.updated_at with
  | none => rw [hu] at hp; simp at hp
  | some s =>
    rw [hu] at hp
    simp only [] at hp
    simp only []
    by_cases hs : s = ""
    · rw [if_pos hs] at hp
      simp at hp
    · rw [if_neg hs] at hp ⊢
      cases hparse : parseTS (replaceZ s) with
      | none =>
        rw [hparse] at hp
        simp at hp
      | some dt =>
        rw [hparse] at hp
        simp only [] at hp ⊢
        rcases Bool.and_eq_true_iff.mp hp with ⟨haw, hd⟩
        refine Bool.and_eq_true_iff.mpr ⟨haw, ?_⟩
        exact decide_eq_true (le_trans (of_decide_eq_true hd) hw)

/-- Witness for C9: tightening the window from 30 to 7 days on a concrete
repository list. -/
theorem claim_C9_recency_monotone_witness :
    recentCount demoNow 7 [okRepo, badRepo]
      ≤ recentCount demoNow 30 [okRepo, badRepo] :=
  claim_C9_recency_monotone demoNow [okRepo, badRepo] 30 7 (by decide)

/-- Summing the percentages produced by `pctOf` factors through the byte sum. -/
theorem sum_map_pctOf (total : Nat) (l : List (String × Nat)) :
    ((l.map (pctOf total)).map Prod.snd).sum
      = ((l.map Prod.snd).sum : ℚ) / (total : ℚ) * 100 := by
  induction l with
  | nil => simp
  | cons a t ih =>
    simp only [List.map_cons, List.sum_cons, ih, pctOf]
    push_cast
    ring

/-- Counterexample for C2 as stated: with eleven equal languages the chart's
reported subset is the top ten only, and its percentages sum to 1000/11 ≈
90.9, far outside the ±0.01 tolerance around 100. -/
theorem claim_C2_counterexample :
    0 < bytesTotal elevenLangs
    ∧ reportedSum elevenLangs = 1000 / 11
    ∧ ¬ |reportedSum elevenLangs - 100| ≤ 1 / 100 := by
  have hv : reportedSum elevenLangs = 1000 / 11 := by
    norm_num [reportedSum, sorted_languages, language_percentages, elevenLangs,
      bytesTotal, pctOf, sortDesc, insertDesc, List.take]
  refine ⟨by decide, hv, ?_⟩
  rw [hv, abs_le]
  intro hcon
  have h1 := hcon.1
  norm_num at h1

/-- Claim C2 (amended): for every language-byte map with positive total, the
computed percentages over the full map sum to exactly 100 (hence within the
±0.01 tolerance); over the reported subset — the top ten entries actually
shown — the sum is 100 only when the map has at most ten languages. -/
theorem claim_C2_percent_sum :
    ∀ language_bytes : List (String × Nat), 0 < bytesTotal language_bytes →
      ((language_percentages language_bytes).map Prod.snd).sum = 100
      ∧ (language_bytes.length ≤ 10 → reportedSum language_bytes = 100) := by
  intro lb h
  have hT : ((bytesTotal lb : ℚ)) ≠ 0 := by
    exact_mod_cast Nat.pos_iff_ne_zero.mp h
  have h100 : ((language_percentages lb).map Prod.snd).sum = 100 := by
    unfold language_percentages
    rw [sum_map_pctOf]
    rw [show ((lb.map Prod.snd).sum : ℚ) = ((bytesTotal lb : Nat) : ℚ) from rfl]
    rw [div_self hT, one_mul]
  refine ⟨h100, fun hlen => ?_⟩
  unfold reportedSum sorted_languages
  rw [List.take_of_length_le, sum_map_sortDesc]
  · exact h100
  · rw [length_sortDesc]
    unfold language_percentages
    rw [List.length_map]
    exact hlen

/-- Witness for C2 (amended): the two-language scenario from the spec, where
both the full sum and the reported (top-ten) sum are exactly 100. -/
theorem claim_C2_percent_sum_witness :
    0 < bytesTotal [("Python", 800), ("JS", 200)]
    ∧ ((language_percentages [("Python", 800), ("JS", 200)]).map Prod.snd).sum
        = 100
    ∧ reportedSum [("Python", 800), ("JS", 200)] = 100 := by
  refine ⟨by decide,
    (claim_C2_percent_sum [("Python", 800), ("JS", 200)] (by decide)).1,
    (claim_C2_percent_sum [("Python", 800), ("JS", 200)] (by decide)).2
      (by decide)⟩

/-- Claim C6: the language-percentage computation of
`get_languages_data_no_token` maps each entry to
`(name, bytes / total * 100)`, returns the result sorted descending by
percent with ties broken by insertion order (the filter-stability equation
below), returns the empty list when the total byte count is zero, and on
`{"Python": 800, "JS": 200}` returns `[("Python", 80), ("JS", 20)]`. -/
theorem claim_C6_language_percentages :
    (∀ languages_data : List (String × Nat), bytesTotal languages_data = 0 →
        get_languages_percent languages_data = [])
    ∧ (∀ languages_data : List (String × Nat), bytesTotal languages_data ≠ 0 →
        get_languages_percent languages_data
          = sortDesc (languages_data.map (pctOf (bytesTotal languages_data))))
    ∧ (∀ languages_data : List (String × Nat),
        DescSorted (get_languages_percent languages_data))
    ∧ (∀ (languages_data : List (String × Nat)) (p : ℚ),
        bytesTotal languages_data ≠ 0 →
        (get_languages_percent languages_data).filter
            (fun x => decide (x.2 = p))
          = (languages_data.map (pctOf (bytesTotal languages_data))).filter
              (fun x => decide (x.2 = p)))
    ∧ get_languages_percent [("Python", 800), ("JS", 200)]
        = [("Python", 80), ("JS", 20)] := by
  have hscen : get_languages_percent [("Python", 800), ("JS", 200)]
      = [("Python", 80), ("JS", 20)] := by
    norm_num [get_languages_percent, bytesTotal, pctOf, sortDesc, insertDesc]
  refine ⟨?_, ?_, ?_, ?_, hscen⟩
  · intro l h
    unfold get_languages_percent
    rw [if_pos h]
  · intro l h
    unfold get_languages_percent
    rw [if_neg h]
  · intro l
    unfold get_languages_percent
    by_cases h : bytesTotal l = 0
    · rw [if_pos h]; exact List.Pairwise.nil
    · rw [if_neg h]; exact descSorted_sortDesc _
  · intro l p h
    unfold get_languages_percent
    rw [if_neg h, filter_sortDesc]

/-- Witness for C6: the spec scenario realises the non-degenerate branches. -/
theorem claim_C6_language_percentages_witness :
    get_languages_percent [("Python", 800), ("JS", 200)]
        = sortDesc ([("Python", 800), ("JS", 200)].map
            (pctOf (bytesTotal [("Python", 800), ("JS", 200)])))
    ∧ get_languages_percent [("A", 0)] = [] := by
  exact ⟨claim_C6_language_percentages.2.1 [("Python", 800), ("JS", 200)]
      (by decide),
    claim_C6_language_percentages.1 [("A", 0)] (by decide)⟩

/-- Counterexample for C7 as stated: the maximum is taken over the raw
`updated_at` strings, so the unparseable `"bad"` (lexicographically above
every digit-initial ISO timestamp) is selected and the result is `"N/A"`,
even though another repository carries a perfectly parseable timestamp —
refuting "N/A exactly when the set is empty or all timestamps are
unparseable". -/
theorem claim_C7_counterexample :
    get_last_activity [okRepo, repoBad] = "N/A"
    ∧ (parseTS (replaceZ "2024-01-02T03:04:05")).isSome = true := by
  have hlt : updatedKey okRepo < updatedKey repoBad := by
    show ("2024-01-02T03:04:05" : String) < "bad"
    simp
    decide
  have hmax : pyMaxBy updatedKey okRepo [repoBad] = repoBad := by
    show pyMaxBy updatedKey
      (if updatedKey okRepo < updatedKey repoBad then repoBad else okRepo) []
      = repoBad
    rw [if_pos hlt]
    rfl
  constructor
  · show (match (pyMaxBy updatedKey okRepo [repoBad]).updated_at with
      | none => "N/A"
      | some s =>
        match parseTS (replaceZ s) with
        | none => "N/A"
        | some dt => formatYMD dt) = "N/A"
    rw [hmax]
    rfl
  · rfl

/-- Claim C7 (amended): `_get_last_activity` selects the repository whose raw
`updated_at` string is lexicographically greatest (which coincides with the
chronological maximum only when all timestamps share the same well-formed
format); it returns that timestamp formatted `YYYY-MM-DD` when it parses, and
returns `"N/A"` exactly when the list is empty or the selected repository's
`updated_at` is missing or unparseable — not merely when all timestamps are
unparseable. -/
theorem claim_C7_last_activity :
    ∀ (r : Repo) (rest : List Repo),
      (∀ x ∈ r :: rest, updatedKey x ≤ updatedKey (latestRepo r rest))
      ∧ (get_last_activity (r :: rest) = "N/A" ↔
          (latestRepo r rest).updated_at = none
          ∨ ∃ s, (latestRepo r rest).updated_at = some s
              ∧ parseTS (replaceZ s) = none)
      ∧ (∀ (s : String) (dt : PyDateTime),
          (latestRepo r rest).updated_at = some s →
          parseTS (replaceZ s) = some dt →
          get_last_activity (r :: rest) = formatYMD dt)
      ∧ get_last_activity [] = "N/A" := by
  intro r rest
  have hred : get_last_activity (r :: rest)
      = (match (latestRepo r rest).updated_at with
         | none => "N/A"
         | some s =>
           match parseTS (replaceZ s) with
           | none => "N/A"
           | some dt => formatYMD dt) := rfl
  rcases pyMaxBy_spec updatedKey r rest with ⟨hmem, hbest, hall⟩
  refine ⟨?_, ?_, ?_, rfl⟩
  · intro x hx
    rcases List.mem_cons.mp hx with rfl | hxt
    · exact hbest
    · exact hall x hxt
  · rw [hred]
    cases hu : (latestRepo r rest).updated_at with
    | none => simp
    | some s =>
      simp only []
      cases hparse : parseTS (replaceZ s) with
      | none =>
        simp only []
        constructor
        · intro _
          exact Or.inr ⟨s, rfl, hparse⟩
        · intro _
          trivial
      | some dt =>
        simp only []
        constructor
        · intro hna
          exact absurd hna (formatYMD_ne_NA dt)
        · rintro (hnone | ⟨s', hs', hp'⟩)
          · exact absurd hnone (by simp)
          · injection hs' with he
            rw [← he, hparse] at hp'
            exact absurd hp' (by simp)
  · intro s dt hs hdt
    rw [hred, hs]
    simp only []
    rw [hdt]

/-- Witness for C7 (amended): a one-repository list with a parseable naive
timestamp, realising the maximality and formatting conjuncts. -/
theorem claim_C7_last_activity_witness :
    updatedKey okRepo ≤ updatedKey (latestRepo okRepo [])
    ∧ get_last_activity [okRepo] = formatYMD ⟨2024, 1, 2, 3, 4, 5, false⟩ := by
  refine ⟨(claim_C7_last_activity okRepo []).1 okRepo ?_,
    (claim_C7_last_activity okRepo []).2.2.1 "2024-01-02T03:04:05"
      ⟨2024, 1, 2, 3, 4, 5, false⟩ rfl rfl⟩
  exact List.mem_cons_self okRepo []

/-- Counterexample for C4 as stated: with an input language named `"Other"`
holding 50% and a folded 1%, the dict assignment `main_languages['Other'] =
other_percent` overwrites the qualifying entry in place, so the non-empty
`"Other"` bucket is first, not appended after the qualifying languages (and
the qualifying 50% entry is lost). -/
theorem claim_C4_counterexample :
    foldSmallLanguages (3 / 2) otherFirst = [("Other", 1), ("X", 49)]
    ∧ (foldSmallLanguages (3 / 2) otherFirst).getLast? ≠ some ("Other", 1) := by
  have hv : foldSmallLanguages (3 / 2) otherFirst = [("Other", 1), ("X", 49)] := by
    norm_num [foldSmallLanguages, otherFirst, foldStep, dictSet, List.foldl]
  refine ⟨hv, ?_⟩
  rw [hv]
  simp

/-- Claim C4 (amended): for every threshold and every language-percentage map
whose keys are distinct and do not already contain `"Other"`, the folding step
keeps exactly the entries at or above the threshold in their original order,
appends a single `"Other"` entry carrying the sum of all folded (below-
threshold) percentages when that sum is positive, and no folded language
appears standalone in the result.  (When the input itself contains a
qualifying `"Other"` entry and the folded sum is positive, the bucket instead
overwrites that entry in place, as the counterexample shows.) -/
theorem claim_C4_small_language_folding :
    ∀ (threshold : ℚ) (languages_data : List (String × ℚ)),
      (languages_data.map Prod.fst).Nodup →
      "Other" ∉ languages_data.map Prod.fst →
      foldSmallLanguages threshold languages_data
          = languages_data.filter (fun x => threshold ≤ x.2)
            ++ (if 0 < otherSum threshold languages_data
                then [("Other", otherSum threshold languages_data)] else [])
      ∧ ∀ x ∈ languages_data, x.2 < threshold →
          x.1 ∉ (foldSmallLanguages threshold languages_data).map Prod.fst := by
  intro T data hnd hother
  have hkeys : ∀ k ∈ (data.filter (fun x => T ≤ x.2)).map Prod.fst,
      k ∈ data.map Prod.fst := by
    intro k hk
    rcases List.mem_map.mp hk with ⟨y, hy, hyk⟩
    exact List.mem_map.mpr ⟨y, List.mem_of_mem_filter hy, hyk⟩
  have hfold : data.foldl (foldStep T) ([], 0)
      = (data.filter (fun x => T ≤ x.2), otherSum T data) := by
    rw [foldStep_foldl_spec T data [] 0 hnd (by simp)]
    simp
  have hmain : foldSmallLanguages T data
      = data.filter (fun x => T ≤ x.2)
        ++ (if 0 < otherSum T data
            then [("Other", otherSum T data)] else []) := by
    show (if 0 < (data.foldl (foldStep T) ([], 0)).2
        then dictSet (data.foldl (foldStep T) ([], 0)).1 "Other"
          (data.foldl (foldStep T) ([], 0)).2
        else (data.foldl (foldStep T) ([], 0)).1) = _
    rw [hfold]
    simp only []
    by_cases hpos : 0 < otherSum T data
    · rw [if_pos hpos, if_pos hpos]
      exact dictSet_fresh _ "Other" _ (fun hmem => hother (hkeys _ hmem))
    · rw [if_neg hpos, if_neg hpos, List.append_nil]
  refine ⟨hmain, ?_⟩
  intro x hx hxT hin
  rw [hmain, List.map_append] at hin
  rcases List.mem_append.mp hin with hin | hin
  · rcases List.mem_map.mp hin with ⟨y, hy, hyk⟩
    have hyd : y ∈ data := (List.mem_filter.mp hy).1
    have hyT : T ≤ y.2 := of_decide_eq_true (List.mem_filter.mp hy).2
    have hxy : x = y :=
      List.inj_on_of_nodup_map hnd hx hyd hyk.symm
    rw [hxy] at hxT
    exact absurd hyT (not_le.mpr hxT)
  · by_cases hpos : 0 < otherSum T data
    · rw [if_pos hpos] at hin
      simp only [List.map_cons, List.map_nil, List.mem_singleton] at hin
      exact hother (hin ▸ List.mem_map.mpr ⟨x, hx, rfl⟩)
    · rw [if_neg hpos] at hin
      simp at hin

/-- Witness for C4 (amended): a duplicate-free two-language map without an
`"Other"` key, whose below-threshold entry is folded into an appended
`"Other"` bucket. -/
theorem claim_C4_small_language_folding_witness :
    ([("A", 2), ("B", 1)].map (Prod.fst (α := String) (β := ℚ))).Nodup
    ∧ "Other" ∉ [(("A" : String), (2 : ℚ)), ("B", 1)].map Prod.fst
    ∧ foldSmallLanguages (3 / 2) [("A", 2), ("B", 1)]
        = [("A", 2), ("Other", 1)] := by
  refine ⟨by decide, by decide, ?_⟩
  have h := (claim_C4_small_language_folding (3 / 2) [("A", 2), ("B", 1)]
    (by decide) (by decide)).1
  rw [h]
  norm_num [otherSum]

/-- Counterexample for C8 as stated: on an empty language map the standalone
`create_languages_chart` does not skip; it substitutes the hard-coded sample
data and still renders a chart. -/
theorem claim_C8_counterexample :
    create_languages_chart_data []
        = ⟨["Python", "JavaScript", "HTML", "CSS", "Java"], [45, 25, 15, 8, 7]⟩
    ∧ (create_languages_chart_data []).labels ≠ [] := by
  have hv : create_languages_chart_data []
      = ⟨["Python", "JavaScript", "HTML", "CSS", "Java"], [45, 25, 15, 8, 7]⟩ := by
    norm_num [create_languages_chart_data, sample_languages_data,
      foldSmallLanguages, foldStep, dictSet, List.foldl]
    decide
  refine ⟨hv, ?_⟩
  rw [hv]
  simp

/-- Claim C8 (amended): on an empty language-byte map the `create_language_chart`
methods of both generator classes skip chart generation and return without
raising; the standalone script's `create_languages_chart` instead substitutes
its hard-coded sample data and still renders a chart. -/
theorem claim_C8_empty_skip :
    create_language_chart [] = Except.ok none
    ∧ create_languages_chart_data []
        = ⟨["Python", "JavaScript", "HTML", "CSS", "Java"],
           [45, 25, 15, 8, 7]⟩ := by
  refine ⟨rfl, ?_⟩
  norm_num [create_languages_chart_data, sample_languages_data,
    foldSmallLanguages, foldStep, dictSet, List.foldl]
  decide
